import Mathlib

/-!
# Verification of the overdoc analysis pipeline

Shallow embedding of the core analysis pipeline of the `overdoc` repository
(symbol extraction, dependency linking, importance scoring, complexity
metrics, knowledge scoring), translated from `src/exports.rs`,
`src/dependencies.rs`, `src/metrics.rs` and `src/main.rs`.

Rust `HashMap`s are modelled as association lists (`List (key × value)`);
`HashSet`-valued adjacency is modelled as an edge list whose reads
deduplicate, so membership and set cardinality agree with the Rust
behaviour.  `f64` arithmetic on well-behaved values is modelled over `ℝ`;
the one place where the Rust code can divide zero by zero is modelled with
an explicit value type carrying `NaN`.
-/

namespace Overdoc

/-! ## Definitions -/

/-- `ExportedEntity` from `src/exports.rs` (fields as in the Rust struct). -/
structure ExportedEntity where
  name : String
  file_path : String
  line_number : Nat
  export_type : String
  usage_count : Nat
  deriving Repr, DecidableEq

/-- `ImportReference` from `src/exports.rs`. -/
structure ImportReference where
  name : String
  file_path : String
  line_number : Nat
  import_statement : String
  deriving Repr, DecidableEq

/-- `ExportsMap = HashMap<String, Vec<ExportedEntity>>`, as an association list. -/
abbrev ExportsMap := List (String × List ExportedEntity)

/-- `ImportsMap = HashMap<String, Vec<ImportReference>>`, as an association list. -/
abbrev ImportsMap := List (String × List ImportReference)

/-- `DependencyGraph` from `src/dependencies.rs`.  The two
`HashMap<String, HashSet<String>>` adjacencies are modelled as edge lists
(a pair `(a, b)` in `file_dependencies` stands for `b ∈ file_dependencies[a]`);
reads deduplicate, matching `HashSet` semantics. -/
structure DependencyGraph where
  file_dependencies : List (String × String)
  reverse_dependencies : List (String × String)
  importance_scores : List (String × Nat)

/-- `DependencyGraph::new`. -/
def DependencyGraph.new : DependencyGraph :=
  ⟨[], [], []⟩

/-- `DependencyGraph::get_file_importance`:
`importance_scores.get(file_path).unwrap_or(&0)`. -/
def DependencyGraph.get_file_importance (g : DependencyGraph) (file_path : String) : Nat :=
  ((g.importance_scores.find? (fun p => p.1 = file_path)).map (·.2)).getD 0

/-- `DependencyGraph::get_dependent_files`: the `HashSet` of files stored
under `file_path` in `reverse_dependencies` (empty when absent). -/
def DependencyGraph.get_dependent_files (g : DependencyGraph) (file_path : String) :
    List String :=
  ((g.reverse_dependencies.filter (fun e => e.1 = file_path)).map (·.2)).dedup

/-- `DependencyGraph::get_dependencies`: the `HashSet` of files stored under
`file_path` in `file_dependencies` (empty when absent). -/
def DependencyGraph.get_dependencies (g : DependencyGraph) (file_path : String) :
    List String :=
  ((g.file_dependencies.filter (fun e => e.1 = file_path)).map (·.2)).dedup

/-- Insertion step of the descending sort used by
`DependencyGraph::get_files_by_importance` (`sort_by(|a, b| b.1.cmp(&a.1))`). -/
def insertDesc (x : String × Nat) : List (String × Nat) → List (String × Nat)
  | [] => [x]
  | y :: ys => if y.2 ≤ x.2 then x :: y :: ys else y :: insertDesc x ys

/-- Sort entries by score, descending (models `Vec::sort_by` with the
comparator `b.1.cmp(&a.1)`; tie order is irrelevant to every claim). -/
def sortDesc (l : List (String × Nat)) : List (String × Nat) :=
  l.foldr insertDesc []

/-- `DependencyGraph::get_files_by_importance`: all `(file, score)` pairs of
`importance_scores`, sorted by score descending. -/
def DependencyGraph.get_files_by_importance (g : DependencyGraph) :
    List (String × Nat) :=
  sortDesc g.importance_scores

/-- The `add_dependency` closure in `build_dependency_graph`: record the edge
`from → to` in the forward adjacency and `to → from` in the reverse one. -/
def add_dependency (fro dst : String) (g : DependencyGraph) : DependencyGraph :=
  { g with
    file_dependencies := (fro, dst) :: g.file_dependencies
    reverse_dependencies := (dst, fro) :: g.reverse_dependencies }

/-- Usage-count update of the linking loop: for one `(import_name, refs)`
entry of the imports map, every export anywhere in the corpus whose name
equals `import_name` gets `usage_count += refs.len()`. -/
def bumpUsage (import_name : String) (k : Nat) (e : ExportedEntity) : ExportedEntity :=
  if e.name = import_name then { e with usage_count := e.usage_count + k } else e

/-- The usage-count part of one outer-loop iteration: apply `bumpUsage` for
the entry's name and reference count to every export of every file. -/
def link_usage_step (em : ExportsMap) (entry : String × List ImportReference) :
    ExportsMap :=
  em.map (fun fe => (fe.1, fe.2.map (bumpUsage entry.1 entry.2.length)))

/-- One iteration of the outer loop of `build_dependency_graph` over the
imports map: update usage counts of all matching exports, and for each
individual reference add a dependency edge unless the importing file equals
the owning file.  (The Rust loop does both in one in-place pass; usage
counts never influence the edges, so the two parts are written out
separately here.) -/
def processImport (exports_graph : ExportsMap × DependencyGraph)
    (entry : String × List ImportReference) : ExportsMap × DependencyGraph :=
  let import_name := entry.1
  let import_refs := entry.2
  let em := exports_graph.1
  let em' : ExportsMap := link_usage_step em entry
  let g' : DependencyGraph :=
    em.foldl (fun g fe =>
      fe.2.foldl (fun g e =>
        if e.name = import_name then
          import_refs.foldl (fun g r =>
            if r.file_path ≠ fe.1 then add_dependency r.file_path fe.1 g else g) g
        else g) g) exports_graph.2
  (em', g')

/-- `calculate_importance_scores` from `src/dependencies.rs`: for each file of
the exports map, score = sum of export usage counts plus twice the number of
dependent files. -/
def calculate_importance_scores (g : DependencyGraph) (em : ExportsMap) :
    DependencyGraph :=
  em.foldl (fun g fe =>
    let usage_score := (fe.2.map (·.usage_count)).sum
    let dependent_files := (g.get_dependent_files fe.1).length
    { g with importance_scores :=
        (fe.1, usage_score + dependent_files * 2) :: g.importance_scores }) g

/-- `build_dependency_graph` from `src/dependencies.rs`.  The Rust function
mutates the exports map in place (usage counts) and returns the graph; the
embedding returns both the updated exports map and the graph. -/
def build_dependency_graph (exports_map : ExportsMap) (imports_map : ImportsMap) :
    ExportsMap × DependencyGraph :=
  let st := imports_map.foldl processImport (exports_map, DependencyGraph.new)
  (st.1, calculate_importance_scores st.2 st.1)

/-- A graph is well formed when every forward edge has the mirrored reverse
edge and vice versa, and no edge joins a file to itself. -/
def GraphInv (g : DependencyGraph) : Prop :=
  ∀ a b : String,
    ((a, b) ∈ g.file_dependencies ↔ (b, a) ∈ g.reverse_dependencies) ∧
    ((a, b) ∈ g.file_dependencies → a ≠ b)

/-- Look up the export list of one file (`exports_map.get(file)`). -/
def lookupFile (em : ExportsMap) (f : String) : Option (List ExportedEntity) :=
  (em.find? (fun p => p.1 = f)).map (·.2)

/-- Sum of `usage_count` over all exports owned by `f`. -/
def usage_total (em : ExportsMap) (f : String) : Nat :=
  (((lookupFile em f).getD []).map (·.usage_count)).sum

/-- All import references across the whole corpus (every value of the
imports map, concatenated). -/
def corpus_refs (im : ImportsMap) : List ImportReference :=
  (im.map (·.2)).flatten

/-- The names of the exports owned by `f`. -/
def export_names (em : ExportsMap) (f : String) : List String :=
  ((lookupFile em f).getD []).map (·.name)

/-- The quantity the specification claims for C1, following its words: the
number of import references across the corpus whose name matches one of
`f`'s export names, minus the self-referencing imports from `f` itself. -/
def claim_usage_total (em : ExportsMap) (im : ImportsMap) (f : String) : Int :=
  (((corpus_refs im).filter
      (fun r => (export_names em f).contains r.name)).length : Int) -
  (((corpus_refs im).filter
      (fun r => (export_names em f).contains r.name && r.file_path == f)).length : Int)

/-- A one-file corpus: `f` exports `a` and also imports `a` itself. -/
def exExports : ExportsMap :=
  [("f", [⟨"a", "f", 1, "function", 0⟩])]

/-- The single self-referencing import of `a` from `f`. -/
def exImports : ImportsMap :=
  [("a", [⟨"a", "f", 3, "use a;"⟩])]

/-- Total increment the linking pass adds over all entries of the imports
map to the entities `es`: each entry contributes its reference count once
per name-matching entity. -/
def added_usage (im : ImportsMap) (es : List ExportedEntity) : Nat :=
  (im.map (fun entry =>
    entry.2.length * es.countP (fun e => decide (e.name = entry.1)))).sum

/-- References of the imports map stored under a key matching `n`, counted
with multiplicity. -/
def count_refs_for (im : ImportsMap) (n : String) : Nat :=
  (im.map (fun entry => if entry.1 = n then entry.2.length else 0)).sum

/-- The storing step of `scan_repository` (`src/exports.rs`): extraction
results are inserted into the exports map only when the extracted list is
non-empty (`if !file_exports.is_empty() { exports_map.insert(...) }`). -/
def store_exports (results : List (String × List ExportedEntity)) : ExportsMap :=
  results.foldl (fun m pe => if pe.2.isEmpty then m else (pe.1, pe.2) :: m) []

/-- The parent-directory chain of `Path::new(file_path)` walked by
`calculate_directory_importance`, modelled for normalized relative paths by
splitting on `/`: every proper non-empty prefix of the segment list (the
empty root sentinel is excluded, as the Rust loop breaks on it). -/
def ancestors (p : String) : List String :=
  let parts := p.splitOn "/"
  (((List.range parts.length).filter (fun k => decide (k ≠ 0))).map
      (fun k => String.intercalate "/" (parts.take k))).reverse.filter
    (fun d => decide (d ≠ ""))

/-- `*dir_scores.entry(dir).or_default() += score` on the association list. -/
def bump_dir (m : List (String × Nat)) (k : String) (v : Nat) :
    List (String × Nat) :=
  if m.any (fun p => p.1 = k) then
    m.map (fun p => if p.1 = k then (p.1, p.2 + v) else p)
  else (k, v) :: m

/-- `calculate_directory_importance` from `src/dependencies.rs`: every file
of the exports map adds its full importance score to each of its ancestor
directories. -/
def calculate_directory_importance (g : DependencyGraph) (em : ExportsMap) :
    List (String × Nat) :=
  em.foldl (fun m fe =>
    (ancestors fe.1).foldl
      (fun m d => bump_dir m d (g.get_file_importance fe.1)) m) []

/-- ASCII whitespace, as trimmed by `str::trim` on the inputs at hand. -/
def isWsChar (c : Char) : Bool :=
  c = ' ' || c = '\t' || c = '\n' || c = '\r'

/-- `str::trim`. -/
def strTrim (s : String) : String :=
  ⟨((s.data.dropWhile isWsChar).reverse.dropWhile isWsChar).reverse⟩

/-- `str::starts_with(pat)`. -/
def strStartsWith (s pat : String) : Bool :=
  pat.data.isPrefixOf s.data

/-- `str::contains(char)`. -/
def strContainsChar (s : String) (c : Char) : Bool :=
  s.data.contains c

/-- Substring search: `str::contains(pat)`. -/
def listContainsSub : List Char → List Char → Bool
  | s, pat =>
    if pat.isPrefixOf s then true
    else
      match s with
      | [] => false
      | _ :: t => listContainsSub t pat

/-- `str::contains(pat)` for a string pattern. -/
def strContainsSub (s pat : String) : Bool :=
  listContainsSub s.data pat.data

/-- Non-overlapping occurrence count, `str::matches(pat).count()` (also
`count_occurrences` in `src/metrics.rs`, which scans with repeated `find`).
The `Nat` argument skips the remaining characters of a match already
consumed. -/
def countOccurAux (pat : List Char) : List Char → Nat → Nat
  | [], _ => 0
  | _ :: t, k + 1 => countOccurAux pat t k
  | c :: t, 0 =>
    if pat.isPrefixOf (c :: t) then 1 + countOccurAux pat t (pat.length - 1)
    else countOccurAux pat t 0

/-- `str::matches(pat).count()`. -/
def countSub (s pat : String) : Nat :=
  countOccurAux pat.data s.data 0

/-- Splitting on a separator, `str::split(sep)` / `String::split_on`.  The
`Nat` argument skips separator characters already consumed; `cur` holds the
current piece. -/
def splitSubAux (pat : List Char) : List Char → Nat → List Char → List (List Char)
  | [], _, cur => [cur]
  | _ :: t, k + 1, cur => splitSubAux pat t k cur
  | c :: t, 0, cur =>
    if pat.isPrefixOf (c :: t) then
      cur :: splitSubAux pat t (pat.length - 1) []
    else
      splitSubAux pat t 0 (cur ++ [c])

/-- `str::split(sep)`, for non-empty separators. -/
def splitSub (s pat : String) : List String :=
  (splitSubAux pat.data s.data 0 []).map (fun l => ⟨l⟩)

/-- Per-line depth change of `calculate_complexity_metrics`
(`src/metrics.rs`): opening brace/paren/bracket count minus closing count,
on the trimmed line. -/
def line_depth_delta (line : String) : Int :=
  let t := (strTrim line).data
  let open_count := t.count '{' + t.count '(' + t.count '['
  let close_count := t.count '}' + t.count ')' + t.count ']'
  (open_count : Int) - close_count

/-- The nesting-depth loop of `calculate_complexity_metrics`: `max_depth`
starts at 0, `current_depth` is updated per line, and `max_depth` is raised
whenever the current depth exceeds it. -/
def max_nesting_depth (lines : List String) : Int :=
  (lines.foldl (fun md_cd line =>
    let cd := md_cd.2 + line_depth_delta line
    (if cd > md_cd.1 then cd else md_cd.1, cd)) ((0 : Int), (0 : Int))).1

/-- The running depth after each line, following the specification's words:
cumulative opening minus closing characters, updated per line. -/
def running_depths (lines : List String) : List Int :=
  (lines.foldl (fun acc_cd line =>
    let cd := acc_cd.2 + line_depth_delta line
    (acc_cd.1 ++ [cd], cd)) (([] : List Int), (0 : Int))).1

/-- First match of the regex `\x7b([^\x7d]+)\x7d`: scan for a `{` followed
by at least one non-`\x7d` character and then a `}`; on failure at one `{`
the scan continues to the right. -/
def brace_scan : List Char → Option (List Char)
  | [] => none
  | c :: rest =>
    if c = '{' then
      let content := rest.takeWhile (fun d => d ≠ '}')
      if !content.isEmpty && !((rest.dropWhile (fun d => d ≠ '}')).isEmpty) then
        some content
      else brace_scan rest
    else brace_scan rest

/-- The brace-group arm of `parse_rust_import_path`: one reference per
comma-separated, trimmed, non-empty item of the first `{...}` group. -/
def brace_items (part : String) (line_num : Nat) (line : String)
    (file_path : String) : List ImportReference :=
  match brace_scan part.data with
  | none => []
  | some content =>
    (splitSubAux [','] content 0 []).filterMap (fun item =>
      let it := strTrim ⟨item⟩
      if it.data.isEmpty then none
      else some ⟨it, file_path, line_num, line⟩)

/-- `parse_rust_import_path` from `src/exports.rs`.  The crate-relative arm
slices `import_path[6..]` — six bytes, although `crate::` is seven bytes
long — modelled by `data.drop 6` (the prefix is ASCII, so bytes are
characters here). -/
def parse_rust_import_path (import_path : String) (line_num : Nat)
    (line : String) (file_path : String) : List ImportReference :=
  if strStartsWith import_path "crate::" then
    let path_parts := splitSub (⟨import_path.data.drop 6⟩ : String) "::"
    if path_parts.isEmpty then []
    else
      let last_part := path_parts.getLastD ""
      if strContainsChar last_part '{' && strContainsChar last_part '}' then
        brace_items last_part line_num line file_path
      else
        [⟨last_part, file_path, line_num, line⟩]
  else
    if strContainsChar import_path '{' && strContainsChar import_path '}' then
      brace_items import_path line_num line file_path
    else
      let parts := splitSub import_path "::"
      if parts.isEmpty then []
      else [⟨parts.getLastD "", file_path, line_num, line⟩]

/-- The value of an IEEE-754 `f64` division as relevant here: a real number,
infinity, or NaN. -/
inductive FVal where
  | nan : FVal
  | inf : FVal
  | val : ℝ → FVal

/-- `a as f64 / b as f64` for the nonnegative integers at hand: division by
zero yields NaN for `0/0` and `+inf` otherwise. -/
noncomputable def f64_div_nat (a b : Nat) : FVal :=
  if b = 0 then (if a = 0 then FVal.nan else FVal.inf)
  else FVal.val ((a : ℝ) / (b : ℝ))

/-- `f64` multiplication by a positive finite constant (here 15 and 0.85):
NaN propagates, `+inf` stays `+inf`, finite values multiply exactly. -/
noncomputable def FVal.mulc : FVal → ℝ → FVal
  | FVal.nan, _ => FVal.nan
  | FVal.inf, _ => FVal.inf
  | FVal.val x, c => FVal.val (x * c)

/-- Adding a finite `f64` on the left: NaN propagates, `+inf` stays `+inf`,
finite values add exactly. -/
noncomputable def FVal.addf (r : ℝ) : FVal → FVal
  | FVal.nan => FVal.nan
  | FVal.inf => FVal.inf
  | FVal.val x => FVal.val (r + x)

/-- Rust's `f64::min` with a finite right operand: if the left argument is
NaN the other argument is returned (the documented `f64::min` behaviour),
`min(+inf, b) = b`, and finite values take the exact minimum. -/
noncomputable def FVal.rustMin : FVal → ℝ → FVal
  | FVal.nan, b => FVal.val b
  | FVal.inf, b => FVal.val b
  | FVal.val x, b => FVal.val (min x b)

/-- `max_importance` in `main` (`src/main.rs`): the maximum score of
`get_files_by_importance`, defaulting to 1 only when the iterator is empty
(`max().unwrap_or(1)`). -/
def max_importance (g : DependencyGraph) : Nat :=
  ((g.get_files_by_importance.map (·.2)).max?).getD 1

/-- The normalized importance patched into a file's metrics by the loop in
`main`: `*importance as f64 / max_importance as f64`. -/
noncomputable def normalized_export_importance (g : DependencyGraph) (i : Nat) : FVal :=
  f64_div_nat i (max_importance g)

/-- Cyclomatic test of one line of `calculate_complexity_metrics`: does the
trimmed line contain a branching keyword of the active language? -/
def cyclomatic_line_hit (ext : String) (line : String) : Bool :=
  let t := strTrim line
  if ext = "rs" then
    strContainsSub t "if " || strContainsSub t "else " || strContainsSub t "match " ||
      strContainsSub t "for " || strContainsSub t "while "
  else if ext = "js" || ext = "ts" || ext = "tsx" || ext = "jsx" then
    strContainsSub t "if " || strContainsSub t "else " || strContainsSub t "switch " ||
      strContainsSub t "case " || strContainsSub t "for " || strContainsSub t "while " ||
      strContainsSub t "? "
  else
    strContainsSub t "if " || strContainsSub t "else " || strContainsSub t "for " ||
      strContainsSub t "while "

/-- The cyclomatic-complexity loop of `calculate_complexity_metrics`: base
complexity 1 plus one per line containing a branching keyword. -/
def calculate_cyclomatic (ext : String) (lines : List String) : Nat :=
  1 + lines.countP (fun line => cyclomatic_line_hit ext line)

/-- The per-line `&&`/`||` bonus of `calculate_cognitive_complexity`:
half a point per occurrence, added only when the line contains one. -/
def logical_op_bonus (t : String) : ℚ :=
  if strContainsSub t "&&" || strContainsSub t "||" then
    (1 / 2 : ℚ) * ((countSub t "&&" + countSub t "||" : Nat) : ℚ)
  else 0

/-- One line of `calculate_cognitive_complexity` (state: score, nesting
level), for the active language. -/
def cognitive_step (ext : String) (st : ℚ × Nat) (line : String) : ℚ × Nat :=
  let t := strTrim line
  let c := st.1
  let nl := st.2
  let stepped : ℚ × Nat :=
    if ext = "rs" then
      if strContainsSub t "if " || strContainsSub t "match " ||
          strContainsSub t "for " || strContainsSub t "while " then
        (c + 1 + (nl : ℚ), if strContainsChar t '{' then nl + 1 else nl)
      else if strContainsSub t "else " then
        (c + 1,
          if strContainsChar t '{' && !strContainsSub t "if " then nl + 1 else nl)
      else if strContainsChar t '|' && strContainsSub t "| \x7b" then
        (c + 1, nl + 1)
      else if strContainsChar t '}' then
        (c, nl - t.data.count '}')
      else (c, nl)
    else if ext = "js" || ext = "ts" || ext = "tsx" || ext = "jsx" then
      if strContainsSub t "if " || strContainsSub t "for " ||
          strContainsSub t "while " || strContainsSub t "switch " then
        (c + 1 + (nl : ℚ), if strContainsChar t '{' then nl + 1 else nl)
      else if strContainsSub t "else " || strContainsSub t "case " then
        (c + 1,
          if strContainsChar t '{' && !strContainsSub t "if " then nl + 1 else nl)
      else if (strContainsSub t "=>" && strContainsChar t '{') ||
          (strContainsSub t "function" && strContainsChar t '{') then
        (c + 1, nl + 1)
      else if strContainsSub t " ? " then
        (c + 1, nl)
      else if strContainsChar t '}' then
        (c, nl - t.data.count '}')
      else (c, nl)
    else
      if strContainsSub t "if " || strContainsSub t "for " ||
          strContainsSub t "while " then
        (c + 1 + (nl : ℚ), if strContainsChar t '{' then nl + 1 else nl)
      else if strContainsSub t "else " then
        (c + 1, nl)
      else if strContainsChar t '}' then
        (c, nl - t.data.count '}')
      else (c, nl)
  if ext = "rs" || ext = "js" || ext = "ts" || ext = "tsx" || ext = "jsx" then
    (stepped.1 + logical_op_bonus t, stepped.2)
  else stepped

/-- `calculate_cognitive_complexity` from `src/metrics.rs`. -/
def calculate_cognitive_complexity (ext : String) (lines : List String) : ℚ :=
  (lines.foldl (cognitive_step ext) ((0 : ℚ), (0 : Nat))).1

/-- The operator/operand tallies of `calculate_halstead_data` (`n1`, `N1`,
`n2`, `N2`).  The tallying itself — substring counting against the fixed
per-language operator table plus identifier and numeric-literal extraction —
is outside every claim, so the tallies enter as data here. -/
structure HalsteadData where
  unique_operators : Nat
  total_operators : Nat
  unique_operands : Nat
  total_operands : Nat

/-- `HalsteadData::volume`: `N * log2(n)`, and 0 when `n <= 0`. -/
noncomputable def HalsteadData.volume (h : HalsteadData) : ℝ :=
  let n : ℝ := ((h.unique_operators + h.unique_operands : Nat) : ℝ)
  let n_total : ℝ := ((h.total_operators + h.total_operands : Nat) : ℝ)
  if n ≤ 0 then 0 else n_total * Real.logb 2 n

/-- `HalsteadData::difficulty`: `(n1/2) * (N2/n2)`, and 0 when `n2 = 0`. -/
noncomputable def HalsteadData.difficulty (h : HalsteadData) : ℝ :=
  if h.unique_operands = 0 then 0
  else ((h.unique_operators : ℝ) / 2) *
    ((h.total_operands : ℝ) / (h.unique_operands : ℝ))

/-- `ComplexityMetrics` from `src/metrics.rs`, with `f64` values over `ℝ`. -/
structure ComplexityMetrics where
  cyclomatic_complexity : ℝ
  max_nesting_depth : ℝ
  cognitive_complexity : ℝ
  halstead_volume : ℝ
  halstead_difficulty : ℝ
  halstead_effort : ℝ
  halstead_time : ℝ
  maintainability_index : ℝ

/-- `analyze_file_complexity` from `src/metrics.rs`: assembles cyclomatic,
nesting, cognitive and Halstead metrics and the maintainability index
`171 - 5.2 ln V - 0.23 CC - 16.2 ln LOC`, clamped to `[0, 100]` when
`LOC > 0` and `V > 0` and defaulting to 100 otherwise. -/
noncomputable def analyze_file_complexity (ext : String) (lines : List String)
    (hd : HalsteadData) : ComplexityMetrics :=
  let cyclomatic : ℝ := (calculate_cyclomatic ext lines : ℝ)
  let nesting : ℝ := (max_nesting_depth lines : ℝ)
  let cognitive : ℝ := ((calculate_cognitive_complexity ext lines : ℚ) : ℝ)
  let volume := hd.volume
  let difficulty := hd.difficulty
  let effort := difficulty * volume
  let time := effort / 18
  let loc : ℝ := (lines.length : ℝ)
  let mi : ℝ :=
    if 0 < loc ∧ 0 < volume then
      let raw := 171 - 5.2 * Real.log volume - 0.23 * cyclomatic -
        16.2 * Real.log loc
      if raw > 100 then 100 else if raw < 0 then 0 else raw
    else 100
  ⟨cyclomatic, nesting, cognitive, volume, difficulty, effort, time, mi⟩

/-- `FileMetrics` from `src/metrics.rs`. -/
structure FileMetrics where
  path : String
  line_count : Nat
  code_lines : Nat
  comment_lines : Nat
  blank_lines : Nat
  file_size_bytes : Nat
  function_count : Nat
  declaration_count : List (String × Nat)
  complexity_metrics : Option ComplexityMetrics
  knowledge_score : Option ℝ
  export_importance : Option ℝ

/-- `calculate_knowledge_score` from `src/metrics.rs`, for a finite
`export_importance` field.  The `f64` special values the importance patch
can produce are handled by `calculate_knowledge_score_f64` below, which
agrees with this function on finite inputs. -/
noncomputable def calculate_knowledge_score (m : FileMetrics)
    (c : ComplexityMetrics) : ℝ :=
  let size_factor := max (Real.log (m.line_count : ℝ)) 1 * 2
  let cc_norm := min c.cyclomatic_complexity 50 / 50
  let cog_norm := min c.cognitive_complexity 200 / 200
  let complexity_factor := cc_norm * 15 + cog_norm * 25
  let maintainability_norm := min ((100 - c.maintainability_index) / 100) 1
  let maintainability_factor := maintainability_norm * 20
  let functions_norm := min ((m.function_count : ℝ)) 20 / 20
  let function_factor := functions_norm * 15
  let decl_count : ℝ := (((m.declaration_count.map (·.2)).sum : Nat) : ℝ)
  let decl_norm := min decl_count 10 / 10
  let declaration_factor := decl_norm * 10
  let export_factor := (m.export_importance.getD 0) * 15
  let knowledge_score := size_factor + complexity_factor + maintainability_factor +
    function_factor + declaration_factor + export_factor
  min (knowledge_score * 0.85) 100

/-- `calculate_knowledge_score` with the `export_importance` field carried
as an `f64` value, so that the NaN (or `+inf`) that `main`'s importance
patch can produce flows through the score exactly as in Rust: the export
factor `ei * 15` and the final sum propagate the special value, and the
closing `.min(100.0)` is Rust's `f64::min`, which returns 100 when the
accumulated score is NaN.  All other factors are finite reals, identical to
`calculate_knowledge_score`. -/
noncomputable def calculate_knowledge_score_f64 (m : FileMetrics)
    (ei : Option FVal) (c : ComplexityMetrics) : FVal :=
  let size_factor := max (Real.log (m.line_count : ℝ)) 1 * 2
  let cc_norm := min c.cyclomatic_complexity 50 / 50
  let cog_norm := min c.cognitive_complexity 200 / 200
  let complexity_factor := cc_norm * 15 + cog_norm * 25
  let maintainability_norm := min ((100 - c.maintainability_index) / 100) 1
  let maintainability_factor := maintainability_norm * 20
  let functions_norm := min ((m.function_count : ℝ)) 20 / 20
  let function_factor := functions_norm * 15
  let decl_count : ℝ := (((m.declaration_count.map (·.2)).sum : Nat) : ℝ)
  let decl_norm := min decl_count 10 / 10
  let declaration_factor := decl_norm * 10
  let export_factor := FVal.mulc (ei.getD (FVal.val 0)) 15
  let knowledge_score := FVal.addf (size_factor + complexity_factor +
    maintainability_factor + function_factor + declaration_factor) export_factor
  FVal.rustMin (FVal.mulc knowledge_score 0.85) 100

/-- `FileMetrics::with_complexity`: attach the complexity value and compute
the knowledge score from the updated metrics. -/
noncomputable def with_complexity (m : FileMetrics) (c : ComplexityMetrics) :
    FileMetrics :=
  let m' := { m with complexity_metrics := some c }
  { m' with knowledge_score := some (calculate_knowledge_score m' c) }

/-- State of the line-classification loop of `analyze_file`. -/
structure ScanState where
  code_lines : Nat
  comment_lines : Nat
  blank_lines : Nat
  function_count : Nat
  declarations : List (String × Nat)
  in_block_comment : Bool

/-- One line of the classification loop of `analyze_file` (`src/metrics.rs`):
blank lines first, then the per-language comment/code split with the
block-comment flag, function counting and declaration counting. -/
def scan_line (ext : String) (st : ScanState) (line : String) : ScanState :=
  let t := strTrim line
  if t.data.isEmpty then { st with blank_lines := st.blank_lines + 1 }
  else if ext = "rs" then
    if st.in_block_comment then
      { st with
        comment_lines := st.comment_lines + 1
        in_block_comment :=
          if strContainsSub t "*/" then false else st.in_block_comment }
    else if strStartsWith t "//" then
      { st with comment_lines := st.comment_lines + 1 }
    else if strStartsWith t "/*" then
      { st with
        comment_lines := st.comment_lines + 1
        in_block_comment :=
          if !strContainsSub t "*/" then true else st.in_block_comment }
    else
      { st with
        code_lines := st.code_lines + 1
        function_count :=
          if strContainsSub t "fn " && !strContainsChar t ';' then
            st.function_count + 1
          else st.function_count
        declarations :=
          ["struct ", "enum ", "trait ", "impl ", "type "].foldl (fun ds d =>
            if strContainsSub t d && !strContainsChar t ';' then
              bump_dir ds (strTrim d) 1
            else ds) st.declarations }
  else if ext = "js" || ext = "ts" || ext = "tsx" || ext = "jsx" then
    if st.in_block_comment then
      { st with
        comment_lines := st.comment_lines + 1
        in_block_comment :=
          if strContainsSub t "*/" then false else st.in_block_comment }
    else if strStartsWith t "//" then
      { st with comment_lines := st.comment_lines + 1 }
    else if strStartsWith t "/*" then
      { st with
        comment_lines := st.comment_lines + 1
        in_block_comment :=
          if !strContainsSub t "*/" then true else st.in_block_comment }
    else
      { st with
        code_lines := st.code_lines + 1
        function_count :=
          if (strContainsSub t "function " || strContainsSub t "=>") &&
              !strContainsChar t ';' then
            st.function_count + 1
          else st.function_count
        declarations :=
          ["class ", "interface ", "type ", "enum "].foldl (fun ds d =>
            if strContainsSub t d && !strContainsChar t ';' then
              bump_dir ds (strTrim d) 1
            else ds) st.declarations }
  else
    if strStartsWith t "#" || strStartsWith t "//" then
      { st with comment_lines := st.comment_lines + 1 }
    else
      { st with code_lines := st.code_lines + 1 }

/-- The whole classification loop of `analyze_file`. -/
def analyze_lines (ext : String) (lines : List String) : ScanState :=
  lines.foldl (scan_line ext) ⟨0, 0, 0, 0, [], false⟩

/-- `analyze_file` from `src/metrics.rs`, after the out-of-scope I/O: the
extension is already extracted from the path, the contents are the line
list, and the Halstead tallies are the ones `calculate_halstead_data` would
produce.  Complexity analysis runs only for `file_size < 1024 * 1024`. -/
noncomputable def analyze_file (path ext : String) (file_size : Nat)
    (lines : List String) (hd : HalsteadData) : FileMetrics :=
  let st := analyze_lines ext lines
  let base : FileMetrics :=
    { path := path
      line_count := lines.length
      code_lines := st.code_lines
      comment_lines := st.comment_lines
      blank_lines := st.blank_lines
      file_size_bytes := file_size
      function_count := st.function_count
      declaration_count := st.declarations
      complexity_metrics := none
      knowledge_score := none
      export_importance := none }
  if file_size < 1024 * 1024 then
    with_complexity base (analyze_file_complexity ext lines hd)
  else base

/-- Metrics of an empty file, used as a witness input. -/
def exMetrics : FileMetrics :=
  { path := "w.rs"
    line_count := 0
    code_lines := 0
    comment_lines := 0
    blank_lines := 0
    file_size_bytes := 0
    function_count := 0
    declaration_count := []
    complexity_metrics := none
    knowledge_score := none
    export_importance := none }

/-! ## Theorems -/

theorem foldl_preserve {α σ : Type _} {P : σ → Prop} (f : σ → α → σ)
    (h : ∀ s a, P s → P (f s a)) :
    ∀ (l : List α) (s : σ), P s → P (l.foldl f s) := by
  intro l
  induction l with
  | nil => intro s hs; simpa using hs
  | cons a l ih =>
    intro s hs
    simpa using ih (f s a) (h s a hs)

theorem graphInv_new : GraphInv DependencyGraph.new := by
  intro a b
  constructor
  · simp [DependencyGraph.new]
  · intro h; simp [DependencyGraph.new] at h

theorem graphInv_add_dependency {g : DependencyGraph} {fro dst : String}
    (hne : fro ≠ dst) (hg : GraphInv g) : GraphInv (add_dependency fro dst g) := by
  intro a b
  constructor
  · simp only [add_dependency, List.mem_cons, Prod.mk.injEq]
    constructor
    · rintro (⟨rfl, rfl⟩ | h)
      · exact Or.inl ⟨rfl, rfl⟩
      · exact Or.inr ((hg a b).1.mp h)
    · rintro (⟨rfl, rfl⟩ | h)
      · exact Or.inl ⟨rfl, rfl⟩
      · exact Or.inr ((hg a b).1.mpr h)
  · simp only [add_dependency, List.mem_cons, Prod.mk.injEq]
    rintro (⟨rfl, rfl⟩ | h)
    · exact hne
    · exact (hg a b).2 h

theorem graphInv_processImport {st : ExportsMap × DependencyGraph}
    (hg : GraphInv st.2) (entry : String × List ImportReference) :
    GraphInv (processImport st entry).2 := by
  unfold processImport
  refine foldl_preserve _ ?_ st.1 st.2 hg
  intro g fe hfe
  refine foldl_preserve _ ?_ fe.2 g hfe
  intro g e hge
  dsimp only
  split
  · refine foldl_preserve _ ?_ entry.2 g hge
    intro g r hgr
    dsimp only
    split
    · exact graphInv_add_dependency (by assumption) hgr
    · exact hgr
  · exact hge

theorem graphInv_calculate_importance_scores {g : DependencyGraph}
    (em : ExportsMap) (hg : GraphInv g) :
    GraphInv (calculate_importance_scores g em) := by
  unfold calculate_importance_scores
  refine foldl_preserve _ ?_ em g hg
  intro g fe hge
  intro a b
  exact hge a b

/-- Claim C2: in the graph produced by `build_dependency_graph`, an edge
`A → B` is in the forward adjacency iff `B → A` is in the reverse adjacency,
and no file ever has an edge to itself in either adjacency. -/
theorem build_graph_edge_symm_no_self (em : ExportsMap) (im : ImportsMap)
    (a b : String) :
    ((a, b) ∈ (build_dependency_graph em im).2.file_dependencies ↔
      (b, a) ∈ (build_dependency_graph em im).2.reverse_dependencies) ∧
    (a, a) ∉ (build_dependency_graph em im).2.file_dependencies ∧
    (a, a) ∉ (build_dependency_graph em im).2.reverse_dependencies := by
  have hinv : GraphInv (build_dependency_graph em im).2 := by
    unfold build_dependency_graph
    refine graphInv_calculate_importance_scores _ ?_
    have : GraphInv (im.foldl processImport (em, DependencyGraph.new)).2 := by
      refine foldl_preserve (P := fun st : ExportsMap × DependencyGraph => GraphInv st.2)
        processImport ?_ im (em, DependencyGraph.new) graphInv_new
      intro st entry hst
      exact graphInv_processImport hst entry
    exact this
  refine ⟨(hinv a b).1, ?_, ?_⟩
  · intro h; exact (hinv a a).2 h rfl
  · intro h; exact (hinv a a).2 ((hinv a a).1.mpr h) rfl

/-- Witness for `build_graph_edge_symm_no_self` on the concretely built
one-file graph. -/
theorem build_graph_edge_symm_no_self_witness :
    ((("f", "g") ∈ (build_dependency_graph exExports exImports).2.file_dependencies ↔
      ("g", "f") ∈ (build_dependency_graph exExports exImports).2.reverse_dependencies) ∧
    ("f", "f") ∉ (build_dependency_graph exExports exImports).2.file_dependencies ∧
    ("f", "f") ∉ (build_dependency_graph exExports exImports).2.reverse_dependencies) :=
  build_graph_edge_symm_no_self exExports exImports "f" "g"

/-- Counterexample to claim C1 as stated: with one export `a` of file `f`
and one self-referencing import of `a` from `f`, linking sets the usage sum
to 1, while the claimed value (matches minus self-references) is 0. -/
theorem usage_total_counterexample :
    usage_total (build_dependency_graph exExports exImports).1 "f" = 1 ∧
    claim_usage_total exExports exImports "f" = 0 := by
  constructor <;> rfl

theorem sum_map_add {α : Type _} (l : List α) (f g : α → Nat) :
    (l.map (fun x => f x + g x)).sum = (l.map f).sum + (l.map g).sum := by
  induction l with
  | nil => rfl
  | cons x l ih => simp [ih]; omega

theorem bumpUsage_name (n : String) (k : Nat) (e : ExportedEntity) :
    (bumpUsage n k e).name = e.name := by
  unfold bumpUsage; split <;> rfl

theorem bumpUsage_usage (n : String) (k : Nat) (e : ExportedEntity) :
    (bumpUsage n k e).usage_count =
      e.usage_count + if e.name = n then k else 0 := by
  unfold bumpUsage; split <;> simp

theorem usage_sum_map_bump (n : String) (k : Nat) (es : List ExportedEntity) :
    ((es.map (bumpUsage n k)).map (·.usage_count)).sum =
      (es.map (·.usage_count)).sum + k * es.countP (fun e => decide (e.name = n)) := by
  induction es with
  | nil => rfl
  | cons e es ih =>
    simp only [List.map_cons, List.sum_cons, List.map_map] at ih ⊢
    rw [List.countP_cons, bumpUsage_usage, ih]
    by_cases h : e.name = n <;> simp [h] <;> ring

theorem countP_map_bump (n' n : String) (k : Nat) (es : List ExportedEntity) :
    (es.map (bumpUsage n k)).countP (fun e => decide (e.name = n')) =
      es.countP (fun e => decide (e.name = n')) := by
  induction es with
  | nil => rfl
  | cons e es ih => simp [List.countP_cons, ih, bumpUsage_name]

theorem countP_comp_bump (n' n : String) (k : Nat) (es : List ExportedEntity) :
    es.countP ((fun e => decide (e.name = n')) ∘ bumpUsage n k) =
      es.countP (fun e => decide (e.name = n')) := by
  apply List.countP_congr
  intro e _
  simp [Function.comp, bumpUsage_name]

theorem lookupFile_map (em : ExportsMap) (f : String)
    (g : List ExportedEntity → List ExportedEntity) :
    lookupFile (em.map (fun fe => (fe.1, g fe.2))) f = (lookupFile em f).map g := by
  induction em with
  | nil => rfl
  | cons p t ih =>
    by_cases h : p.1 = f
    · simp [lookupFile, List.find?_cons, h]
    · simpa [lookupFile, List.find?_cons, h] using ih

theorem lookupFile_link_usage_step (em : ExportsMap)
    (entry : String × List ImportReference) (f : String) :
    lookupFile (link_usage_step em entry) f =
      (lookupFile em f).map (fun es => es.map (bumpUsage entry.1 entry.2.length)) := by
  unfold link_usage_step
  exact lookupFile_map em f _

theorem usage_total_foldl_link (im : ImportsMap) (em : ExportsMap) (f : String) :
    usage_total (im.foldl link_usage_step em) f =
      usage_total em f + added_usage im ((lookupFile em f).getD []) := by
  induction im generalizing em with
  | nil => simp [added_usage]
  | cons entry t ih =>
    have hstep : usage_total (link_usage_step em entry) f =
        usage_total em f +
          entry.2.length *
            ((lookupFile em f).getD []).countP (fun e => decide (e.name = entry.1)) := by
      unfold usage_total
      rw [lookupFile_link_usage_step]
      cases lookupFile em f with
      | none => simp
      | some es => simpa using usage_sum_map_bump entry.1 entry.2.length es
    have htail : added_usage t ((lookupFile (link_usage_step em entry) f).getD []) =
        added_usage t ((lookupFile em f).getD []) := by
      rw [lookupFile_link_usage_step]
      cases lookupFile em f with
      | none => rfl
      | some es =>
        simp [added_usage, countP_map_bump, countP_comp_bump]
    have hhead : added_usage (entry :: t) ((lookupFile em f).getD []) =
        entry.2.length *
            ((lookupFile em f).getD []).countP (fun e => decide (e.name = entry.1)) +
          added_usage t ((lookupFile em f).getD []) := by
      simp [added_usage]
    rw [List.foldl_cons, ih (link_usage_step em entry), hstep, htail, hhead]
    omega

theorem fst_foldl_processImport (im : ImportsMap) (em : ExportsMap)
    (g : DependencyGraph) :
    (im.foldl processImport (em, g)).1 = im.foldl link_usage_step em := by
  induction im generalizing em g with
  | nil => rfl
  | cons entry t ih => exact ih (link_usage_step em entry) _

theorem sum_map_ite_name (es : List ExportedEntity) (n : String) (k : Nat) :
    (es.map (fun e => if n = e.name then k else 0)).sum =
      k * es.countP (fun e => decide (e.name = n)) := by
  induction es with
  | nil => rfl
  | cons e es ih =>
    rw [List.map_cons, List.sum_cons, List.countP_cons, ih]
    by_cases h : e.name = n
    · simp [h]; ring
    · simp [h]
      intro hn
      exact absurd hn.symm h

theorem added_usage_eq_sum_entities (im : ImportsMap) (es : List ExportedEntity) :
    added_usage im es = (es.map (fun e => count_refs_for im e.name)).sum := by
  induction im with
  | nil => simp [added_usage, count_refs_for]
  | cons p t ih =>
    have hsplit : (es.map (fun e => count_refs_for (p :: t) e.name)).sum =
        (es.map (fun e => if p.1 = e.name then p.2.length else 0)).sum +
          (es.map (fun e => count_refs_for t e.name)).sum := by
      rw [← sum_map_add]
      simp [count_refs_for]
    rw [added_usage, List.map_cons, List.sum_cons, ← added_usage, ih, hsplit,
      sum_map_ite_name]

theorem count_refs_for_cons (p : String × List ImportReference)
    (t : ImportsMap) (n : String) :
    count_refs_for (p :: t) n =
      (if p.1 = n then p.2.length else 0) + count_refs_for t n := by
  simp [count_refs_for]

theorem count_refs_for_eq_corpus (im : ImportsMap) (n : String)
    (hw : ∀ p ∈ im, ∀ r ∈ p.2, r.name = p.1) :
    count_refs_for im n =
      ((corpus_refs im).filter (fun r => decide (r.name = n))).length := by
  induction im with
  | nil => rfl
  | cons p t ih =>
    have hp : ∀ r ∈ p.2, r.name = p.1 := hw p (List.mem_cons_self p t)
    have ht : ∀ q ∈ t, ∀ r ∈ q.2, r.name = q.1 :=
      fun q hq => hw q (List.mem_cons_of_mem p hq)
    have hcorpus : corpus_refs (p :: t) = p.2 ++ corpus_refs t := by
      simp [corpus_refs]
    rw [hcorpus, List.filter_append, List.length_append, ← ih ht]
    by_cases h : p.1 = n
    · have hfil : p.2.filter (fun r => decide (r.name = n)) = p.2 := by
        apply List.filter_eq_self.mpr
        intro r hr
        simp [hp r hr, h]
      rw [count_refs_for_cons, if_pos h, hfil]
    · have hfil : p.2.filter (fun r => decide (r.name = n)) = [] := by
        apply List.filter_eq_nil_iff.mpr
        intro r hr
        simp [hp r hr, h]
      rw [count_refs_for_cons, if_neg h, hfil]
      simp

/-- Claim C1, amended: after the linking pass, the sum of `usage_count` over
the exports of `f` equals the sum, over each export `e` of `f`, of the
number of import references in the whole corpus whose name equals `e.name`
— self-referencing imports from `f` itself are counted, not subtracted. -/
theorem usage_total_after_linking (em : ExportsMap) (im : ImportsMap)
    (f : String) (es : List ExportedEntity)
    (hes : lookupFile em f = some es)
    (h0 : ∀ e ∈ es, e.usage_count = 0)
    (hw : ∀ p ∈ im, ∀ r ∈ p.2, r.name = p.1) :
    usage_total (build_dependency_graph em im).1 f =
      (es.map (fun e =>
        ((corpus_refs im).filter (fun r => decide (r.name = e.name))).length)).sum := by
  have hzero : usage_total em f = 0 := by
    unfold usage_total
    rw [hes]
    simp only [Option.getD_some]
    rw [List.sum_eq_zero]
    intro x hx
    obtain ⟨e, he, rfl⟩ := List.mem_map.mp hx
    exact h0 e he
  unfold build_dependency_graph
  rw [fst_foldl_processImport, usage_total_foldl_link, hzero, hes]
  simp only [Option.getD_some, Nat.zero_add]
  rw [added_usage_eq_sum_entities]
  congr 1
  apply List.map_congr_left
  intro e _
  exact count_refs_for_eq_corpus im e.name hw

/-- Witness for `usage_total_after_linking` at the concrete one-file corpus:
the hypotheses hold and the linked usage sum is the unsubtracted count 1. -/
theorem usage_total_after_linking_witness :
    lookupFile exExports "f" = some [⟨"a", "f", 1, "function", 0⟩] ∧
    usage_total (build_dependency_graph exExports exImports).1 "f" =
      (([⟨"a", "f", 1, "function", 0⟩] : List ExportedEntity).map (fun e =>
        ((corpus_refs exImports).filter (fun r => decide (r.name = e.name))).length)).sum := by
  refine ⟨rfl, ?_⟩
  exact usage_total_after_linking exExports exImports "f" _ rfl
    (by decide) (by decide)

/-- Claim C9: for a file path that occurs nowhere in the dependency graph,
the public accessors return their defaults — importance 0 and empty
dependency lists — rather than failing. -/
theorem accessors_default_for_unknown_file (g : DependencyGraph) (p : String)
    (h1 : ∀ e ∈ g.importance_scores, e.1 ≠ p)
    (h2 : ∀ e ∈ g.file_dependencies, e.1 ≠ p)
    (h3 : ∀ e ∈ g.reverse_dependencies, e.1 ≠ p) :
    g.get_file_importance p = 0 ∧
    g.get_dependencies p = [] ∧
    g.get_dependent_files p = [] := by
  refine ⟨?_, ?_, ?_⟩
  · unfold DependencyGraph.get_file_importance
    have : g.importance_scores.find? (fun e => decide (e.1 = p)) = none := by
      rw [List.find?_eq_none]
      intro x hx
      simp [h1 x hx]
    simp [this]
  · unfold DependencyGraph.get_dependencies
    have : g.file_dependencies.filter (fun e => decide (e.1 = p)) = [] := by
      apply List.filter_eq_nil_iff.mpr
      intro x hx
      simp [h2 x hx]
    simp [this]
  · unfold DependencyGraph.get_dependent_files
    have : g.reverse_dependencies.filter (fun e => decide (e.1 = p)) = [] := by
      apply List.filter_eq_nil_iff.mpr
      intro x hx
      simp [h3 x hx]
    simp [this]

/-- Witness for `accessors_default_for_unknown_file` on the concretely built
one-file graph and a path absent from it. -/
theorem accessors_default_for_unknown_file_witness :
    (build_dependency_graph exExports exImports).2.get_file_importance "zzz" = 0 ∧
    (build_dependency_graph exExports exImports).2.get_dependencies "zzz" = [] ∧
    (build_dependency_graph exExports exImports).2.get_dependent_files "zzz" = [] :=
  accessors_default_for_unknown_file (build_dependency_graph exExports exImports).2
    "zzz" (by decide) (by decide) (by decide)

theorem mem_insertDesc (x y : String × Nat) (l : List (String × Nat)) :
    x ∈ insertDesc y l ↔ x = y ∨ x ∈ l := by
  induction l with
  | nil => simp [insertDesc]
  | cons z l ih =>
    unfold insertDesc
    split
    · simp
    · simp [ih]
      tauto

theorem mem_sortDesc (x : String × Nat) (l : List (String × Nat)) :
    x ∈ sortDesc l ↔ x ∈ l := by
  induction l with
  | nil => simp [sortDesc]
  | cons y l ih =>
    unfold sortDesc at ih ⊢
    rw [List.foldr_cons, mem_insertDesc, ih, List.mem_cons]

theorem keys_link_usage_step (em : ExportsMap)
    (entry : String × List ImportReference) :
    (link_usage_step em entry).map (·.1) = em.map (·.1) := by
  simp [link_usage_step, List.map_map]

theorem keys_foldl_link_usage_step (im : ImportsMap) (em : ExportsMap) :
    (im.foldl link_usage_step em).map (·.1) = em.map (·.1) := by
  induction im generalizing em with
  | nil => rfl
  | cons entry t ih => rw [List.foldl_cons, ih, keys_link_usage_step]

theorem mem_keys_calculate_importance_scores (g : DependencyGraph)
    (em : ExportsMap) (f : String) :
    f ∈ (calculate_importance_scores g em).importance_scores.map (·.1) ↔
      f ∈ g.importance_scores.map (·.1) ∨ f ∈ em.map (·.1) := by
  induction em generalizing g with
  | nil => simp [calculate_importance_scores]
  | cons fe t ih =>
    unfold calculate_importance_scores at ih ⊢
    rw [List.foldl_cons, ih]
    simp
    tauto

theorem keys_store_foldl_neg (f : String) :
    ∀ (results : List (String × List ExportedEntity)) (acc : ExportsMap),
      (∀ p ∈ results, p.1 = f → p.2 = []) → f ∉ acc.map (·.1) →
      f ∉ (results.foldl
        (fun m pe => if pe.2.isEmpty then m else (pe.1, pe.2) :: m) acc).map (·.1) := by
  intro results
  induction results with
  | nil => intro acc _ hacc; simpa using hacc
  | cons r t ih =>
    intro acc hf hacc
    rw [List.foldl_cons]
    have ht : ∀ p ∈ t, p.1 = f → p.2 = [] :=
      fun p hp => hf p (List.mem_cons_of_mem r hp)
    by_cases hemp : r.2.isEmpty
    · rw [if_pos hemp]
      exact ih acc ht hacc
    · rw [if_neg hemp]
      refine ih _ ht ?_
      intro hmem
      simp only [List.map_cons, List.mem_cons] at hmem
      rcases hmem with h | h
      · have h2 := hf r (List.mem_cons_self r t) h.symm
        exact hemp (by simp [h2])
      · exact hacc h

theorem keys_store_exports_neg (results : List (String × List ExportedEntity))
    (f : String) (hf : ∀ p ∈ results, p.1 = f → p.2 = []) :
    f ∉ (store_exports results).map (·.1) :=
  keys_store_foldl_neg f results [] hf (by simp)

theorem keys_store_foldl_pos (f : String) :
    ∀ (results : List (String × List ExportedEntity)) (acc : ExportsMap),
      ((∃ q ∈ results, q.1 = f ∧ q.2 ≠ []) ∨ f ∈ acc.map (·.1)) →
      f ∈ (results.foldl
        (fun m pe => if pe.2.isEmpty then m else (pe.1, pe.2) :: m) acc).map (·.1) := by
  intro results
  induction results with
  | nil =>
    intro acc h
    rcases h with ⟨q, hq, _⟩ | h
    · simp at hq
    · simpa using h
  | cons r t ih =>
    intro acc h
    rw [List.foldl_cons]
    rcases h with ⟨q, hq, hqf, hqne⟩ | h
    · rcases List.mem_cons.mp hq with rfl | hqt
      · have hemp : ¬ q.2.isEmpty = true := by
          cases hq2 : q.2 with
          | nil => exact absurd hq2 hqne
          | cons a l => simp [hq2]
        rw [if_neg hemp]
        refine ih _ (Or.inr ?_)
        simp [hqf]
      · exact ih _ (Or.inl ⟨q, hqt, hqf, hqne⟩)
    · by_cases hemp : r.2.isEmpty
      · rw [if_pos hemp]; exact ih _ (Or.inr h)
      · rw [if_neg hemp]
        refine ih _ (Or.inr ?_)
        simp only [List.map_cons, List.mem_cons]
        exact Or.inr h

theorem keys_store_exports_pos (results : List (String × List ExportedEntity))
    (q : String × List ExportedEntity) (hq : q ∈ results) (hne : q.2 ≠ []) :
    q.1 ∈ (store_exports results).map (·.1) :=
  keys_store_foldl_pos q.1 results [] (Or.inl ⟨q, hq, rfl, hne⟩)

theorem mem_keys_sortDesc (f : String) (l : List (String × Nat)) :
    f ∈ (sortDesc l).map (·.1) ↔ f ∈ l.map (·.1) := by
  simp only [List.mem_map]
  constructor
  · rintro ⟨x, hx, rfl⟩
    exact ⟨x, (mem_sortDesc x l).mp hx, rfl⟩
  · rintro ⟨x, hx, rfl⟩
    exact ⟨x, (mem_sortDesc x l).mpr hx, rfl⟩

theorem importance_scores_foldl_processImport (im : ImportsMap) (em : ExportsMap) :
    (im.foldl processImport (em, DependencyGraph.new)).2.importance_scores = [] := by
  refine foldl_preserve
    (P := fun st : ExportsMap × DependencyGraph => st.2.importance_scores = [])
    processImport ?_ im (em, DependencyGraph.new) rfl
  intro st entry hst
  unfold processImport
  dsimp only
  refine foldl_preserve
    (P := fun g : DependencyGraph => g.importance_scores = []) _ ?_ st.1 st.2 hst
  intro g fe hg
  refine foldl_preserve
    (P := fun g : DependencyGraph => g.importance_scores = []) _ ?_ fe.2 g hg
  intro g e hg2
  dsimp only
  split
  · refine foldl_preserve
      (P := fun g : DependencyGraph => g.importance_scores = []) _ ?_ entry.2 g hg2
    intro g r hg3
    dsimp only
    split
    · simpa [add_dependency] using hg3
    · exact hg3
  · exact hg2

theorem keys_build_fst (em : ExportsMap) (im : ImportsMap) :
    (build_dependency_graph em im).1.map (·.1) = em.map (·.1) := by
  unfold build_dependency_graph
  rw [fst_foldl_processImport, keys_foldl_link_usage_step]

theorem mem_keys_build_importance (em : ExportsMap) (im : ImportsMap) (f : String) :
    f ∈ (build_dependency_graph em im).2.get_files_by_importance.map (·.1) ↔
      f ∈ em.map (·.1) := by
  unfold build_dependency_graph DependencyGraph.get_files_by_importance
  dsimp only
  rw [mem_keys_sortDesc, mem_keys_calculate_importance_scores,
    importance_scores_foldl_processImport, fst_foldl_processImport,
    keys_foldl_link_usage_step]
  simp

/-- Claim C10: the importance map is keyed exactly by files owning at least
one extracted export.  A file whose extraction found no exports never
appears in `get_files_by_importance` (even if it imports names), owns no
key of the exports map, and contributes nothing to directory importance;
conversely every file with a non-empty extraction does appear. -/
theorem importance_keyed_by_exporting_files
    (results : List (String × List ExportedEntity)) (im : ImportsMap) (f : String)
    (hf : ∀ p ∈ results, p.1 = f → p.2 = []) :
    f ∉ (build_dependency_graph (store_exports results) im).1.map (·.1) ∧
    f ∉ (build_dependency_graph (store_exports results) im).2.get_files_by_importance.map
      (·.1) ∧
    calculate_directory_importance (build_dependency_graph (store_exports results) im).2
        (build_dependency_graph (store_exports results) im).1 =
      calculate_directory_importance (build_dependency_graph (store_exports results) im).2
        ((build_dependency_graph (store_exports results) im).1.filter
          (fun p => decide (p.1 ≠ f))) ∧
    ∀ q ∈ results, q.2 ≠ [] →
      q.1 ∈ (build_dependency_graph (store_exports results) im).2.get_files_by_importance.map
        (·.1) := by
  have hkeys : f ∉ (build_dependency_graph (store_exports results) im).1.map (·.1) := by
    rw [keys_build_fst]
    exact keys_store_exports_neg results f hf
  refine ⟨hkeys, ?_, ?_, ?_⟩
  · rw [mem_keys_build_importance]
    rw [keys_build_fst] at hkeys
    exact hkeys
  · have hfil : (build_dependency_graph (store_exports results) im).1.filter
        (fun p => decide (p.1 ≠ f)) =
        (build_dependency_graph (store_exports results) im).1 := by
      apply List.filter_eq_self.mpr
      intro p hp
      simp only [decide_eq_true_eq]
      intro hpf
      exact hkeys (List.mem_map.mpr ⟨p, hp, hpf⟩)
    rw [hfil]
  · intro q hq hqne
    rw [mem_keys_build_importance, ← keys_build_fst (store_exports results) im,
      keys_build_fst]
    exact keys_store_exports_pos results q hq hqne

/-- Witness for `importance_keyed_by_exporting_files`: file `f` has an empty
extraction but imports `a`; file `g` exports `a`.  Only `g` is scored. -/
theorem importance_keyed_by_exporting_files_witness :
    "f" ∉ (build_dependency_graph
      (store_exports [("f", []), ("g", [⟨"a", "g", 1, "function", 0⟩])])
      [("a", [⟨"a", "f", 2, "use a;"⟩])]).2.get_files_by_importance.map (·.1) ∧
    "g" ∈ (build_dependency_graph
      (store_exports [("f", []), ("g", [⟨"a", "g", 1, "function", 0⟩])])
      [("a", [⟨"a", "f", 2, "use a;"⟩])]).2.get_files_by_importance.map (·.1) := by
  have h := importance_keyed_by_exporting_files
    [("f", []), ("g", [⟨"a", "g", 1, "function", 0⟩])]
    [("a", [⟨"a", "f", 2, "use a;"⟩])] "f" (by decide)
  refine ⟨h.2.1, ?_⟩
  exact h.2.2.2 ("g", [⟨"a", "g", 1, "function", 0⟩]) (by decide) (by decide)

/-- Counterexample to claim C7 as stated: on the malformed one-line file
`)` the running depth is `-1` on its only line, so the claimed maximum over
all lines is `-1`, but the code reports `0` — the reported value is clamped
at zero, never negative. -/
theorem max_nesting_depth_counterexample :
    max_nesting_depth [")"] = 0 ∧ (running_depths [")"]).max? = some (-1) := by
  constructor <;> rfl

theorem running_depths_fold_acc (t : List String) :
    ∀ (acc : List Int) (cd : Int),
      (t.foldl (fun acc_cd line =>
        (acc_cd.1 ++ [acc_cd.2 + line_depth_delta line],
          acc_cd.2 + line_depth_delta line)) (acc, cd)).1 =
      acc ++ (t.foldl (fun acc_cd line =>
        (acc_cd.1 ++ [acc_cd.2 + line_depth_delta line],
          acc_cd.2 + line_depth_delta line)) (([] : List Int), cd)).1 := by
  induction t with
  | nil => intro acc cd; simp
  | cons l t ih =>
    intro acc cd
    rw [List.foldl_cons, List.foldl_cons]
    dsimp only
    rw [ih (acc ++ [cd + line_depth_delta l]), ih ([] ++ [cd + line_depth_delta l])]
    simp

theorem max_nesting_depth_aux (lines : List String) :
    ∀ (md cd : Int),
      (lines.foldl (fun md_cd line =>
        (if md_cd.2 + line_depth_delta line > md_cd.1 then
          md_cd.2 + line_depth_delta line else md_cd.1,
          md_cd.2 + line_depth_delta line)) (md, cd)).1 =
      (lines.foldl (fun acc_cd line =>
        (acc_cd.1 ++ [acc_cd.2 + line_depth_delta line],
          acc_cd.2 + line_depth_delta line)) (([] : List Int), cd)).1.foldl max md := by
  induction lines with
  | nil => intro md cd; simp
  | cons l t ih =>
    intro md cd
    rw [List.foldl_cons, List.foldl_cons]
    dsimp only
    simp only [List.nil_append]
    rw [ih, running_depths_fold_acc t [cd + line_depth_delta l]]
    rw [List.foldl_append]
    congr 1
    simp only [List.foldl_cons, List.foldl_nil]
    by_cases h : cd + line_depth_delta l > md
    · rw [if_pos h, max_eq_right h.le]
    · rw [if_neg h, max_eq_left (not_lt.mp h)]

/-- Claim C7, amended: the reported max nesting depth equals the maximum of
`0` and the running depths of all lines — the initial value 0 of `max_depth`
clamps the result at zero, so it is never negative. -/
theorem max_nesting_depth_eq_clamped_max (lines : List String) :
    max_nesting_depth lines = (running_depths lines).foldl max 0 := by
  unfold max_nesting_depth running_depths
  exact max_nesting_depth_aux lines 0 0

/-- Claim C3 fails on the code: for the single-segment crate-relative path
of `use crate::foo;`, the emitted reference is named `:foo` — the
six-byte slice leaves the second colon of the `crate::` prefix in place —
while the claim requires exactly `foo`. -/
theorem parse_rust_import_path_crate_single_segment :
    parse_rust_import_path "crate::foo" 1 "use crate::foo;" "f" =
      [⟨":foo", "f", 1, "use crate::foo;"⟩] ∧
    (":foo" : String) ≠ "foo" := by
  constructor
  · decide
  · decide

/-- Claim C4 fails on the code: with a corpus whose only file exports one
unused symbol, every importance score is 0, so `max_importance` is 0 (the
`unwrap_or(1)` default applies only to an empty corpus) and the patched
value is `0.0 / 0.0 = NaN`, not the claimed 0. -/
theorem normalized_export_importance_nan :
    max_importance (build_dependency_graph exExports []).2 = 0 ∧
    (build_dependency_graph exExports []).2.get_file_importance "f" = 0 ∧
    normalized_export_importance (build_dependency_graph exExports []).2
      ((build_dependency_graph exExports []).2.get_file_importance "f") = FVal.nan ∧
    FVal.nan ≠ FVal.val 0 := by
  have hmax : max_importance (build_dependency_graph exExports []).2 = 0 := rfl
  have himp : (build_dependency_graph exExports []).2.get_file_importance "f" = 0 := rfl
  refine ⟨hmax, himp, ?_, ?_⟩
  · rw [normalized_export_importance, himp, hmax]
    simp [f64_div_nat]
  · intro h
    exact FVal.noConfusion h

theorem analyze_file_complexity_mi (ext : String) (lines : List String)
    (hd : HalsteadData) :
    (analyze_file_complexity ext lines hd).maintainability_index =
      if 0 < (lines.length : ℝ) ∧ 0 < hd.volume then
        if (171 - 5.2 * Real.log hd.volume -
            0.23 * (calculate_cyclomatic ext lines : ℝ) -
            16.2 * Real.log (lines.length : ℝ)) > 100 then 100
        else if (171 - 5.2 * Real.log hd.volume -
            0.23 * (calculate_cyclomatic ext lines : ℝ) -
            16.2 * Real.log (lines.length : ℝ)) < 0 then 0
        else (171 - 5.2 * Real.log hd.volume -
            0.23 * (calculate_cyclomatic ext lines : ℝ) -
            16.2 * Real.log (lines.length : ℝ))
      else 100 := rfl

theorem sequential_clamp_eq_max_min (raw : ℝ) :
    (if raw > 100 then (100 : ℝ) else if raw < 0 then 0 else raw) =
      max 0 (min 100 raw) := by
  by_cases h1 : raw > 100
  · rw [if_pos h1, min_eq_left h1.le, max_eq_right]
    norm_num
  · rw [if_neg h1]
    push_neg at h1
    rw [min_eq_right h1]
    by_cases h2 : raw < 0
    · rw [if_pos h2, max_eq_left h2.le]
    · rw [if_neg h2, max_eq_right (not_lt.mp h2)]

theorem analyze_mi_mem_Icc (ext : String) (lines : List String)
    (hd : HalsteadData) :
    (analyze_file_complexity ext lines hd).maintainability_index ∈
      Set.Icc (0 : ℝ) 100 := by
  rw [analyze_file_complexity_mi]
  split
  · rw [sequential_clamp_eq_max_min]
    constructor
    · exact le_max_left 0 _
    · exact max_le (by norm_num) (min_le_left _ _)
  · constructor <;> norm_num

/-- Claim C6: the maintainability index equals the clamped formula when the
line count and Halstead volume are positive, equals exactly 100 when either
is zero, and always lies in `[0, 100]`. -/
theorem maintainability_index_spec (ext : String) (lines : List String)
    (hd : HalsteadData) :
    (0 < lines.length → 0 < hd.volume →
      (analyze_file_complexity ext lines hd).maintainability_index =
        max 0 (min 100 (171 - 5.2 * Real.log hd.volume -
          0.23 * (calculate_cyclomatic ext lines : ℝ) -
          16.2 * Real.log (lines.length : ℝ)))) ∧
    (lines.length = 0 ∨ hd.volume = 0 →
      (analyze_file_complexity ext lines hd).maintainability_index = 100) ∧
    (analyze_file_complexity ext lines hd).maintainability_index ∈
      Set.Icc (0 : ℝ) 100 := by
  rw [analyze_file_complexity_mi]
  refine ⟨?_, ?_, ?_⟩
  · intro hl hv
    rw [if_pos ⟨by exact_mod_cast hl, hv⟩, sequential_clamp_eq_max_min]
  · intro h
    rw [if_neg]
    rintro ⟨h1, h2⟩
    rcases h with h | h
    · rw [h] at h1; exact lt_irrefl _ (by exact_mod_cast h1)
    · rw [h] at h2; exact lt_irrefl _ h2
  · rw [← analyze_file_complexity_mi]
    exact analyze_mi_mem_Icc ext lines hd

/-- Witness for `maintainability_index_spec`: the empty file gets
maintainability index exactly 100. -/
theorem maintainability_index_spec_witness :
    (analyze_file_complexity "rs" [] ⟨0, 0, 0, 0⟩).maintainability_index = 100 :=
  (maintainability_index_spec "rs" [] ⟨0, 0, 0, 0⟩).2.1 (Or.inl rfl)

theorem logical_op_bonus_nonneg (t : String) : 0 ≤ logical_op_bonus t := by
  unfold logical_op_bonus
  split
  · positivity
  · exact le_refl 0

theorem cognitive_step_fst_ge (ext : String) (st : ℚ × Nat) (line : String) :
    st.1 ≤ (cognitive_step ext st line).1 := by
  have hb := logical_op_bonus_nonneg (strTrim line)
  have hnl : (0 : ℚ) ≤ (st.2 : ℚ) := by positivity
  unfold cognitive_step
  dsimp only
  repeat' split
  all_goals dsimp only
  all_goals linarith

theorem cognitive_nonneg (ext : String) (lines : List String) :
    0 ≤ calculate_cognitive_complexity ext lines := by
  unfold calculate_cognitive_complexity
  refine foldl_preserve (P := fun st : ℚ × Nat => 0 ≤ st.1)
    (cognitive_step ext) ?_ lines ((0 : ℚ), (0 : Nat)) (le_refl 0)
  intro st line hst
  exact le_trans hst (cognitive_step_fst_ge ext st line)

/-- Range of `calculate_knowledge_score` under the sign facts the pipeline
provides for its inputs. -/
theorem calculate_knowledge_score_mem (m : FileMetrics) (c : ComplexityMetrics)
    (hcc : 0 ≤ c.cyclomatic_complexity) (hcog : 0 ≤ c.cognitive_complexity)
    (hmi : c.maintainability_index ≤ 100)
    (hei : 0 ≤ m.export_importance.getD 0) :
    calculate_knowledge_score m c ∈ Set.Icc (0 : ℝ) 100 := by
  unfold calculate_knowledge_score
  dsimp only
  constructor
  · refine le_min ?_ (by norm_num)
    refine mul_nonneg ?_ (by norm_num)
    refine add_nonneg (add_nonneg (add_nonneg (add_nonneg
      (add_nonneg ?_ ?_) ?_) ?_) ?_) ?_
    · exact mul_nonneg (le_trans zero_le_one (le_max_right _ _)) (by norm_num)
    · refine add_nonneg ?_ ?_
      · exact mul_nonneg (div_nonneg (le_min hcc (by norm_num)) (by norm_num))
          (by norm_num)
      · exact mul_nonneg (div_nonneg (le_min hcog (by norm_num)) (by norm_num))
          (by norm_num)
    · refine mul_nonneg (le_min (div_nonneg (by linarith) (by norm_num))
        (by norm_num)) (by norm_num)
    · exact mul_nonneg (div_nonneg (le_min (Nat.cast_nonneg _) (by norm_num))
        (by norm_num)) (by norm_num)
    · exact mul_nonneg (div_nonneg (le_min (Nat.cast_nonneg _) (by norm_num))
        (by norm_num)) (by norm_num)
    · exact mul_nonneg hei (by norm_num)
  · exact min_le_right _ _

theorem analyze_file_complexity_cyclo (ext : String) (lines : List String)
    (hd : HalsteadData) :
    (analyze_file_complexity ext lines hd).cyclomatic_complexity =
      (calculate_cyclomatic ext lines : ℝ) := rfl

theorem analyze_file_complexity_cog (ext : String) (lines : List String)
    (hd : HalsteadData) :
    (analyze_file_complexity ext lines hd).cognitive_complexity =
      ((calculate_cognitive_complexity ext lines : ℚ) : ℝ) := rfl

/-- Claim C5: for every file whose complexity is analyzed, the computed
knowledge score is a finite real in `[0, 100]` in both passes: with no
export importance (first pass), and with the exact `f64` value `main`
patches in for any dependency graph and importance score (second pass) —
including the degenerate corpus where that value is NaN (`0.0/0.0`, reached
per claim C4) or `+inf`, where Rust's `f64::min` makes the score 100. -/
theorem knowledge_score_in_range (ext : String) (lines : List String)
    (hd : HalsteadData) (m : FileMetrics) (g : DependencyGraph) (i : Nat) :
    (∃ s : ℝ,
      calculate_knowledge_score_f64 m none (analyze_file_complexity ext lines hd) =
        FVal.val s ∧ s ∈ Set.Icc (0 : ℝ) 100) ∧
    (∃ s : ℝ,
      calculate_knowledge_score_f64 m (some (normalized_export_importance g i))
        (analyze_file_complexity ext lines hd) =
        FVal.val s ∧ s ∈ Set.Icc (0 : ℝ) 100) := by
  have hcc : 0 ≤ (analyze_file_complexity ext lines hd).cyclomatic_complexity := by
    rw [analyze_file_complexity_cyclo]
    exact Nat.cast_nonneg _
  have hcog : 0 ≤ (analyze_file_complexity ext lines hd).cognitive_complexity := by
    rw [analyze_file_complexity_cog]
    exact_mod_cast cognitive_nonneg ext lines
  have hmi := (analyze_mi_mem_Icc ext lines hd).2
  constructor
  · exact ⟨calculate_knowledge_score { m with export_importance := none }
      (analyze_file_complexity ext lines hd), rfl,
      calculate_knowledge_score_mem _ _ hcc hcog hmi (le_refl 0)⟩
  · by_cases hb : max_importance g = 0
    · by_cases ha : i = 0
      · have hnan : normalized_export_importance g i = FVal.nan := by
          unfold normalized_export_importance f64_div_nat
          rw [if_pos hb, if_pos ha]
        rw [hnan]
        exact ⟨100, rfl, by norm_num⟩
      · have hinf : normalized_export_importance g i = FVal.inf := by
          unfold normalized_export_importance f64_div_nat
          rw [if_pos hb, if_neg ha]
        rw [hinf]
        exact ⟨100, rfl, by norm_num⟩
    · have hval : normalized_export_importance g i =
          FVal.val ((i : ℝ) / (max_importance g : ℝ)) := by
        unfold normalized_export_importance f64_div_nat
        rw [if_neg hb]
      rw [hval]
      exact ⟨calculate_knowledge_score
        { m with export_importance := some ((i : ℝ) / (max_importance g : ℝ)) }
        (analyze_file_complexity ext lines hd), rfl,
        calculate_knowledge_score_mem _ _ hcc hcog hmi
          (div_nonneg (Nat.cast_nonneg i) (Nat.cast_nonneg _))⟩

/-- Witness for `knowledge_score_in_range` at the traced degenerate corpus
of claim C4, where the patched importance is NaN. -/
theorem knowledge_score_in_range_witness :
    ∃ s : ℝ,
      calculate_knowledge_score_f64 exMetrics
        (some (normalized_export_importance (build_dependency_graph exExports []).2
          ((build_dependency_graph exExports []).2.get_file_importance "f")))
        (analyze_file_complexity "rs" [] ⟨0, 0, 0, 0⟩) = FVal.val s ∧
      s ∈ Set.Icc (0 : ℝ) 100 :=
  (knowledge_score_in_range "rs" [] ⟨0, 0, 0, 0⟩ exMetrics
    (build_dependency_graph exExports []).2
    ((build_dependency_graph exExports []).2.get_file_importance "f")).2

theorem scan_line_total (ext : String) (st : ScanState) (line : String) :
    (scan_line ext st line).code_lines + (scan_line ext st line).comment_lines +
      (scan_line ext st line).blank_lines =
    st.code_lines + st.comment_lines + st.blank_lines + 1 := by
  unfold scan_line
  dsimp only
  repeat' split
  all_goals simp
  all_goals omega

theorem analyze_lines_total_aux (ext : String) (lines : List String) :
    ∀ st : ScanState,
      (lines.foldl (scan_line ext) st).code_lines +
        (lines.foldl (scan_line ext) st).comment_lines +
        (lines.foldl (scan_line ext) st).blank_lines =
      st.code_lines + st.comment_lines + st.blank_lines + lines.length := by
  induction lines with
  | nil => intro st; simp
  | cons l t ih =>
    intro st
    rw [List.foldl_cons, ih (scan_line ext st l), scan_line_total]
    simp
    omega

theorem analyze_lines_total (ext : String) (lines : List String) :
    (analyze_lines ext lines).code_lines + (analyze_lines ext lines).comment_lines +
      (analyze_lines ext lines).blank_lines = lines.length := by
  unfold analyze_lines
  rw [analyze_lines_total_aux]
  simp

/-- Claim C8: a file at or above the 1 MiB size ceiling still gets analyzed
— the basic line counts are produced and classify every line — but the
complexity metrics (and hence the knowledge score) stay absent, with no
error raised. -/
theorem oversized_file_skips_complexity (path ext : String) (file_size : Nat)
    (lines : List String) (hd : HalsteadData)
    (hsize : 1024 * 1024 ≤ file_size) :
    (analyze_file path ext file_size lines hd).complexity_metrics = none ∧
    (analyze_file path ext file_size lines hd).knowledge_score = none ∧
    (analyze_file path ext file_size lines hd).line_count = lines.length ∧
    (analyze_file path ext file_size lines hd).code_lines +
      (analyze_file path ext file_size lines hd).comment_lines +
      (analyze_file path ext file_size lines hd).blank_lines = lines.length := by
  have hlt : ¬ file_size < 1024 * 1024 := by omega
  unfold analyze_file
  rw [if_neg hlt]
  refine ⟨rfl, rfl, rfl, ?_⟩
  exact analyze_lines_total ext lines

/-- Witness for `oversized_file_skips_complexity` at exactly the ceiling. -/
theorem oversized_file_skips_complexity_witness :
    (analyze_file "big.rs" "rs" (1024 * 1024) ["fn a() \x7b\x7d"] ⟨0, 0, 0, 0⟩).complexity_metrics
        = none ∧
    (analyze_file "big.rs" "rs" (1024 * 1024) ["fn a() \x7b\x7d"] ⟨0, 0, 0, 0⟩).knowledge_score
        = none ∧
    (analyze_file "big.rs" "rs" (1024 * 1024) ["fn a() \x7b\x7d"] ⟨0, 0, 0, 0⟩).line_count = 1 ∧
    (analyze_file "big.rs" "rs" (1024 * 1024) ["fn a() \x7b\x7d"] ⟨0, 0, 0, 0⟩).code_lines +
      (analyze_file "big.rs" "rs" (1024 * 1024) ["fn a() \x7b\x7d"] ⟨0, 0, 0, 0⟩).comment_lines +
      (analyze_file "big.rs" "rs" (1024 * 1024) ["fn a() \x7b\x7d"] ⟨0, 0, 0, 0⟩).blank_lines = 1 :=
  oversized_file_skips_complexity "big.rs" "rs" (1024 * 1024) ["fn a() \x7b\x7d"]
    ⟨0, 0, 0, 0⟩ (le_refl _)

end Overdoc
